import Mathlib

/-!
Verification model of the Agent-S3 browser command bridge and hybrid routing layer.

The definitions below are a shallow embedding of the Python sources
`gui_agents/s3/browser/bridge.py` (class `BrowserBridge`, function
`get_browser_bridge`) and `gui_agents/s3/agents/hybrid_aci.py` (class
`HybridACI`).  Wire messages are modelled as JSON values; Python dictionaries
become association lists; `asyncio.Future` objects become an explicit
`FutureState`; code that can raise returns a `PyResult`.  The caller-visible
behaviour of `send_command` is modelled by splitting it into its phases
(guard, correlation-id allocation and registration, wait, exception handlers),
and the receive loop `_handle_client` / `_handle_message` is modelled as a
step function over the pending-call registry.
-/

namespace AgentS3

/-- JSON values: the payloads travelling between the bridge and the browser
extension.  `json.loads` produces exactly these shapes (objects, arrays,
strings, numbers, booleans, null).  Numeric values are modelled as integers;
no claim depends on non-integer numbers. -/
inductive JValue : Type where
  | obj  : List (String × JValue) → JValue
  | arr  : List JValue → JValue
  | str  : String → JValue
  | num  : Int → JValue
  | bool : Bool → JValue
  | null : JValue
  deriving Repr

/-- Result of running a piece of Python code: either a value or a raised
exception (identified by a short description). -/
inductive PyResult (α : Type) : Type where
  | ok    : α → PyResult α
  | raise : String → PyResult α
  deriving Repr

/-- Python truthiness of a JSON value (`bool(v)`): empty containers, empty
strings, zero, `False` and `None` are falsy. -/
def truthy : JValue → Bool
  | .obj fs => !fs.isEmpty
  | .arr l  => !l.isEmpty
  | .str s  => !(s == "")
  | .num n  => !(n == 0)
  | .bool b => b
  | .null   => false

/-- Python truthiness of the result of `dict.get`: a missing key yields `None`,
which is falsy. -/
def truthyOpt : Option JValue → Bool
  | none => false
  | some v => truthy v

/-- `v.get(k)` in Python: returns the stored value (or `None`) when `v` is a
dictionary and raises `AttributeError` otherwise. -/
def pyGet (v : JValue) (k : String) : PyResult (Option JValue) :=
  match v with
  | .obj fs => .ok ((fs.find? (fun p => p.1 == k)).map (·.2))
  | _ => .raise "AttributeError"

/-- `v.get(k, d)` in Python: like `pyGet` but substituting the default for a
missing key.  A stored `null` is returned as-is (it does not trigger the
default). -/
def pyGetD (v : JValue) (k : String) (d : JValue) : PyResult JValue :=
  match v with
  | .obj fs => .ok (((fs.find? (fun p => p.1 == k)).map (·.2)).getD d)
  | _ => .raise "AttributeError"

/-- Lookup in an association list modelling a Python `dict`. -/
def dictFind {α : Type} (reg : List (String × α)) (k : String) : Option α :=
  (reg.find? (fun p => p.1 == k)).map (·.2)

/-- `dict.pop(k, None)`: remove the key.  Registry keys are unique, so
filtering is the removal of the (at most one) entry. -/
def dictPop {α : Type} (reg : List (String × α)) (k : String) : List (String × α) :=
  reg.filter (fun p => !(p.1 == k))

/-- `d[k] = v`: map update. -/
def dictSet {α : Type} (reg : List (String × α)) (k : String) (v : α) :
    List (String × α) :=
  dictPop reg k ++ [(k, v)]

/-- Decimal rendering of a natural number, modelling Python's `str(n)`:
base-10 digits, most significant first. -/
def decStr (n : Nat) : String :=
  if n = 0 then "0" else ⟨((Nat.digits 10 n).map Nat.digitChar).reverse⟩

/-- The correlation identifier `f"cmd-{n}"` built in `send_command`. -/
def mkId (n : Nat) : String := "cmd-" ++ decStr n

/-- State of one `asyncio.Future` created for a pending call. -/
inductive FutureState : Type where
  | waiting : FutureState
  | doneResult : JValue → FutureState
  | doneError : String → FutureState
  deriving Repr

/-- `future.done()`. -/
def FutureState.isDone : FutureState → Bool
  | .waiting => false
  | _ => true

/-- The pending-call registry `self._pending_commands`: correlation id to
future. -/
abbrev Reg : Type := List (String × FutureState)

/-- A resolution event: `_handle_message` completed the future of `id` with
the response frame `value`. -/
structure Resolution : Type where
  id : String
  value : JValue
  deriving Repr

/-- The bridge state visible to `send_command` and the receive loop:
`self.connected`, whether `self._loop` is set, the correlation counter
`self._command_id`, and the pending-call registry. -/
structure BridgeState : Type where
  connected : Bool
  hasLoop : Bool
  commandId : Nat
  pending : Reg

/-- The failure dictionary `{"success": False, "error": msg}` returned by
`send_command` on its error paths. -/
def errOutcome (msg : String) : JValue :=
  .obj [("success", .bool false), ("error", .str msg)]

/-- `send_command`'s immediate return when no live connection exists. -/
def notConnectedOutcome : JValue := errOutcome "Extension not connected"

/-- `send_command`'s return on `asyncio.TimeoutError`. -/
def timeoutOutcome : JValue := errOutcome "Command timed out"

/-- The outbound command frame `{"id": .., "action": .., "params": ..}`. -/
def encodeCommand (cmdId action : String) (params : List (String × JValue)) :
    JValue :=
  .obj [("id", .str cmdId), ("action", .str action), ("params", .obj params)]

/-- `data.get("type") == "handshake"` — equality of an optional JSON value
with the string `"handshake"`. -/
def isHandshakeTag : Option JValue → Bool
  | some (.str s) => s == "handshake"
  | _ => false

/-- `_handle_message`: decode one inbound frame and route it.  `none` models a
frame `json.loads` rejects (the `json.JSONDecodeError` handler logs and
returns).  For decoded data the code runs `data.get("type")` (raising
`AttributeError` when `data` is not a dictionary), acknowledges handshakes,
then evaluates `cmd_id and cmd_id in self._pending_commands` — the membership
test raises `TypeError` on an unhashable (array/object) id — and pops and
resolves the matching future when present and not yet done.  Returns the new
registry and the resolution event, if any. -/
def handleMessage (pending : Reg) (message : Option JValue) :
    PyResult (Reg × Option Resolution) :=
  match message with
  | none => .ok (pending, none)
  | some data =>
    match pyGet data "type" with
    | .raise e => .raise e
    | .ok t =>
      if isHandshakeTag t then .ok (pending, none)
      else
        match pyGet data "id" with
        | .raise e => .raise e
        | .ok none => .ok (pending, none)
        | .ok (some idv) =>
          if truthy idv then
            match idv with
            | .arr _ => .raise "TypeError"
            | .obj _ => .raise "TypeError"
            | .str s =>
              match dictFind pending s with
              | some .waiting => .ok (dictPop pending s, some ⟨s, data⟩)
              | some _ => .ok (dictPop pending s, none)
              | none => .ok (pending, none)
            | _ => .ok (pending, none)
          else .ok (pending, none)

/-- The correlation-id allocation fragment of `send_command`
(`self._command_id += 1; cmd_id = f"cmd-{self._command_id}"`), executed
sequentially: maps the counter to the fresh id and the new counter. -/
def allocSeq (c : Nat) : String × Nat := (mkId (c + 1), c + 1)

/-- The registration phase of `send_command`: the guard
`if not self.connected or not self._loop` yields `none` (the caller returns
`notConnectedOutcome` at once); otherwise the counter is bumped, the id
allocated and a fresh waiting future stored in the registry. -/
def sendCommandStart (st : BridgeState) : Option (String × BridgeState) :=
  if st.connected && st.hasLoop then
    let (cmdId, c') := allocSeq st.commandId
    some (cmdId, { st with commandId := c',
                           pending := dictSet st.pending cmdId .waiting })
  else none

/-- Exceptions that can surface from the wait
(`result_future.result(timeout + 1)`). -/
inductive PyExc : Type where
  | connectionError : String → PyExc
  | otherError : String → PyExc
  deriving Repr

/-- `str(e)` for the exceptions above. -/
def excMessage : PyExc → String
  | .connectionError m => m
  | .otherError m => m

/-- What the environment does to the caller's future during the wait. -/
inductive WaitEvent : Type where
  | resolved : JValue → WaitEvent
  | timedOut : WaitEvent
  | excRaised : PyExc → WaitEvent
  deriving Repr

/-- Caller-visible result of `send_command`: its return value, paired with the
command frame it sent (`none` when the not-connected guard fired and nothing
was sent).  The wait phase is driven by `w`; the two `except` clauses convert
`asyncio.TimeoutError` and any other exception into failure dictionaries, so
every branch returns a value. -/
def sendCommand (st : BridgeState) (action : String)
    (params : List (String × JValue)) (w : WaitEvent) :
    JValue × Option JValue :=
  if st.connected && st.hasLoop then
    let cmdId := (allocSeq st.commandId).1
    let frame := encodeCommand cmdId action params
    match w with
    | .resolved v => (v, some frame)
    | .timedOut => (timeoutOutcome, some frame)
    | .excRaised e => (errOutcome (excMessage e), some frame)
  else (notConnectedOutcome, none)

/-- The caller-side pop in the `except` handlers of `send_command`:
`self._pending_commands.pop(cmd_id, None)`. -/
def sendCommandAbandon (st : BridgeState) (cmdId : String) : BridgeState :=
  { st with pending := dictPop st.pending cmdId }

/-- The cancellation sweep in the `finally` block of `_handle_client`: every
future not yet done gets `ConnectionError("Extension disconnected")`; done
futures are left as they are.  This list is what the blocked callers observe. -/
def cancelPendingFutures (pending : Reg) : List (String × FutureState) :=
  pending.map (fun p =>
    (p.1, match p.2 with
          | .waiting => .doneError "Extension disconnected"
          | f => f))

/-- The `finally` block of `_handle_client`: drop the client, mark
disconnected, cancel all waiting futures, clear the registry.  Returns the new
bridge state and the futures as the callers see them. -/
def handleClientCleanup (st : BridgeState) :
    BridgeState × List (String × FutureState) :=
  ({ st with connected := false, pending := [] },
   cancelPendingFutures st.pending)

/-- What a caller blocked on a future returns from `send_command` once the
future is done: a resolved frame is returned as-is, an exception is caught by
the `except Exception` handler and converted to a failure dictionary.
`none` means the caller is still blocked. -/
def callerReturn : FutureState → Option JValue
  | .waiting => none
  | .doneResult v => some v
  | .doneError m => some (errOutcome m)

/-- The receive loop `async for message in websocket` of `_handle_client`:
frames are fed to `_handle_message` in order.  An exception escaping the
handler is caught by the surrounding `except Exception`, the loop stops, and
the `finally` cleanup tears the connection down; the remaining frames are
returned unprocessed.  When all frames are processed the loop ends with the
state intact (the peer closing the socket is a separate event). -/
def receiveLoop (st : BridgeState) (frames : List (Option JValue)) :
    BridgeState × List Resolution × List (Option JValue) :=
  match frames with
  | [] => (st, [], [])
  | f :: rest =>
    match handleMessage st.pending f with
    | .raise _ => ((handleClientCleanup st).1, [], rest)
    | .ok (p', r) =>
      let (st', rs, leftover) := receiveLoop { st with pending := p' } rest
      (st', r.toList ++ rs, leftover)

/-! ### Interleaved execution of the unsynchronized id allocation

`send_command` bumps `self._command_id` with `+=`, a read-modify-write that
CPython executes as separate bytecode steps (load, add, store), followed by a
separate re-read in the f-string.  Two caller threads may interleave these
steps.  The model gives each thread its own temporary and lets a schedule
order the six atomic micro-operations. -/

/-- Shared and thread-local state of two threads concurrently running the
allocation fragment of `send_command`. -/
structure RaceState : Type where
  counter : Nat
  tmp1 : Nat
  tmp2 : Nat
  id1 : Option String
  id2 : Option String
  deriving Repr, DecidableEq

/-- The atomic micro-operations of the two allocating threads: load the
counter into the thread's temporary, store the incremented temporary, read
the counter again to build the id string. -/
inductive RaceOp : Type where
  | read1 | write1 | name1 | read2 | write2 | name2
  deriving Repr, DecidableEq

/-- Effect of one micro-operation. -/
def raceStep (s : RaceState) : RaceOp → RaceState
  | .read1 => { s with tmp1 := s.counter }
  | .write1 => { s with counter := s.tmp1 + 1 }
  | .name1 => { s with id1 := some (mkId s.counter) }
  | .read2 => { s with tmp2 := s.counter }
  | .write2 => { s with counter := s.tmp2 + 1 }
  | .name2 => { s with id2 := some (mkId s.counter) }

/-- Run a schedule of micro-operations. -/
def raceRun (s : RaceState) (ops : List RaceOp) : RaceState := ops.foldl raceStep s

/-- Thread 1's program order for one allocation. -/
def thread1Prog : List RaceOp := [.read1, .write1, .name1]

/-- Thread 2's program order for one allocation. -/
def thread2Prog : List RaceOp := [.read2, .write2, .name2]

/-- A legal interleaving: both threads read the counter before either stores. -/
def raceSchedule : List RaceOp := [.read1, .read2, .write1, .write2, .name1, .name2]

/-! ### Steps of the bridge system with serialized allocation

Each constructor is one effect on the shared bridge state: a caller
registering a fresh call, a caller abandoning its call after a timeout or a
wait exception, the receive loop handling one frame, the disconnect cleanup,
a peer (re)connecting, and the event loop coming up.  The `register`
constructor executes the allocation-plus-registration phase of
`send_command` as one transition: it therefore describes only executions in
which no two callers interleave inside the unsynchronized
`self._command_id += 1` fragment.  The raced executions this relation
deliberately excludes are modelled separately by `raceRun`, which shows two
interleaved callers can obtain the same correlation id. -/

/-- One step of the bridge system, with the allocation fragment serialized
(no two callers interleaved inside it). -/
inductive BridgeStep : BridgeState → BridgeState → Prop where
  | register (st : BridgeState) (cmdId : String) (st1 : BridgeState) :
      sendCommandStart st = some (cmdId, st1) → BridgeStep st st1
  | abandon (st : BridgeState) (cmdId : String) :
      BridgeStep st (sendCommandAbandon st cmdId)
  | handleMsg (st : BridgeState) (msg : Option JValue) (p' : Reg)
      (r : Option Resolution) :
      handleMessage st.pending msg = .ok (p', r) →
      BridgeStep st { st with pending := p' }
  | disconnect (st : BridgeState) :
      BridgeStep st (handleClientCleanup st).1
  | connect (st : BridgeState) :
      BridgeStep st { st with connected := true }
  | loopUp (st : BridgeState) :
      BridgeStep st { st with hasLoop := true }

/-- Reachability in zero or more steps. -/
def BridgeReach : BridgeState → BridgeState → Prop :=
  Relation.ReflTransGen BridgeStep

/-! ### Bridge outcomes as seen by the routing layer

`send_command` hands the routing layer a dictionary: the peer's response frame
on success or explicit failure, or one of the synthesized failure
dictionaries.  `Outcome` names the four variants of the data model and
`outcomeDict` is the dictionary `send_command` returns for each (correlation
fields of peer frames are dropped: the routing code never reads them). -/

/-- The tagged outcome of a bridge call. A `success` carries the optional
`result` object of the response frame. -/
inductive Outcome : Type where
  | success : Option (List (String × JValue)) → Outcome
  | failure : String → Outcome
  | timedOut : Outcome
  | disconnected : Outcome

/-- The dictionary `send_command` returns to the routing layer for each
outcome. -/
def outcomeDict : Outcome → JValue
  | .success none => .obj [("success", .bool true)]
  | .success (some p) => .obj [("success", .bool true), ("result", .obj p)]
  | .failure r => .obj [("success", .bool false), ("error", .str r)]
  | .timedOut => timeoutOutcome
  | .disconnected => errOutcome "Extension disconnected"

/-! ### The routing decision engine (`HybridACI`) -/

/-- The inputs of a routing decision: `self.enable_browser`, whether
`self.bridge` is set, `self.bridge.connected`, and the window classifier's
answer `is_browser_active()`. -/
structure RoutingState : Type where
  enableBrowser : Bool
  hasBridge : Bool
  connected : Bool
  foregroundBrowser : Bool

/-- `HybridACI.browser_available`: requires browsing enabled, a bridge object
and a connected peer. -/
def browserAvailable (rs : RoutingState) : Bool :=
  rs.enableBrowser && rs.hasBridge && rs.connected

/-- `HybridACI._should_use_browser`: the bridge is available and the
foreground window is classified as a browser. -/
def shouldUseBrowser (rs : RoutingState) : Bool :=
  browserAvailable rs && rs.foregroundBrowser

/-- One observable side effect of a routing call: a command issued on the
bridge, or an invocation of the visual executor with the action's original
parameters. -/
inductive TraceEv : Type where
  | bridgeCmd : String → List (String × JValue) → TraceEv
  | visualClick : String → Nat → String → List String → TraceEv
  | visualType : String → String → Bool → Bool → TraceEv
  | visualScroll : String → String → Int → TraceEv

/-- The check `result.get("success") and result.get("result", ...).get(key)`
used on click/find/type responses, with Python's short-circuit evaluation:
the second operand is only evaluated (and can only raise) when
`result.get("success")` is truthy; the default for a missing `result` key is
the empty dictionary. -/
def successIndicator (key : String) (result : JValue) : PyResult Bool :=
  match pyGet result "success" with
  | .raise e => .raise e
  | .ok s =>
    if truthyOpt s then
      match pyGetD result "result" (.obj []) with
      | .raise e => .raise e
      | .ok r =>
        match pyGet r key with
        | .raise e => .raise e
        | .ok c => .ok (truthyOpt c)
    else .ok false

/-- The bare check `result.get("success")` used by scroll, goto, page content
and screenshot. -/
def successOnly (result : JValue) : PyResult Bool :=
  match pyGet result "success" with
  | .raise e => .raise e
  | .ok s => .ok (truthyOpt s)

/-- The fixed settle-delay instruction returned after a completed DOM click. -/
def clickSettle : String := "import time; time.sleep(0.3)  # DOM click completed"

/-- The fixed settle-delay instruction returned after a completed DOM type. -/
def typeSettle : String := "import time; time.sleep(0.2)  # DOM type completed"

/-- The fixed settle-delay instruction returned after a completed DOM scroll. -/
def scrollSettle : String := "import time; time.sleep(0.2)  # DOM scroll completed"

/-- The fixed settle-delay instruction returned after a completed DOM
navigation. -/
def navSettle : String := "import time; time.sleep(1.0)  # Navigation completed"

/-- Python `repr` of a string literal without special characters, as used in
the `goto` fallback f-string. -/
def pyStrRepr (s : String) : String := "'" ++ s ++ "'"

/-- The OS-level fallback instruction of `goto`:
`f"import webbrowser; webbrowser.open(...)"`. -/
def webbrowserInstr (url : String) : String :=
  "import webbrowser; webbrowser.open(" ++ pyStrRepr url ++ ")"

/-- `HybridACI._try_browser_click`: bail out (no command) when the bridge is
unavailable; otherwise issue `click` with the element text and test the
`clicked` indicator on the response `resp`.  Returns the settle instruction
when the indicator is positive, `none` to request visual fallback. -/
def tryBrowserClick (rs : RoutingState) (desc : String) (resp : JValue) :
    PyResult (Option String × List TraceEv) :=
  if !browserAvailable rs then .ok (none, [])
  else
    match successIndicator "clicked" resp with
    | .raise e => .raise e
    | .ok true => .ok (some clickSettle, [.bridgeCmd "click" [("text", .str desc)]])
    | .ok false => .ok (none, [.bridgeCmd "click" [("text", .str desc)]])

/-- `HybridACI.click`: DOM first when `_should_use_browser()`, with the
response frame `resp`; otherwise, or on fallback, the parent visual `click`
with the original parameters.  `visual` is the opaque visual-grounding
collaborator. -/
def hybridClick (rs : RoutingState) (desc : String) (nclicks : Nat)
    (btype : String) (hold : List String) (resp : JValue)
    (visual : String → Nat → String → List String → String) :
    PyResult (String × List TraceEv) :=
  if shouldUseBrowser rs then
    match tryBrowserClick rs desc resp with
    | .raise e => .raise e
    | .ok (some code, tr) => .ok (code, tr)
    | .ok (none, tr) =>
      .ok (visual desc nclicks btype hold, tr ++ [.visualClick desc nclicks btype hold])
  else .ok (visual desc nclicks btype hold, [.visualClick desc nclicks btype hold])

/-- `HybridACI._try_browser_type`: bail out when the bridge is unavailable;
when an element description is given, first `find_element` (response
`findResp`) and bail out unless it reports `found`; then `type` (response
`typeResp`) and test the `typed` indicator. -/
def tryBrowserType (rs : RoutingState) (text : String)
    (elemDesc : Option String) (clear : Bool)
    (findResp typeResp : JValue) : PyResult (Option String × List TraceEv) :=
  if !browserAvailable rs then .ok (none, [])
  else
    match elemDesc with
    | some d =>
      match successIndicator "found" findResp with
      | .raise e => .raise e
      | .ok false => .ok (none, [.bridgeCmd "find_element" [("text", .str d)]])
      | .ok true =>
        match successIndicator "typed" typeResp with
        | .raise e => .raise e
        | .ok true =>
          .ok (some typeSettle,
               [.bridgeCmd "find_element" [("text", .str d)],
                .bridgeCmd "type" [("text", .str text), ("clear", .bool clear)]])
        | .ok false =>
          .ok (none,
               [.bridgeCmd "find_element" [("text", .str d)],
                .bridgeCmd "type" [("text", .str text), ("clear", .bool clear)]])
    | none =>
      match successIndicator "typed" typeResp with
      | .raise e => .raise e
      | .ok true =>
        .ok (some typeSettle, [.bridgeCmd "type" [("text", .str text), ("clear", .bool clear)]])
      | .ok false =>
        .ok (none, [.bridgeCmd "type" [("text", .str text), ("clear", .bool clear)]])

/-- `HybridACI.type`: DOM first when `_should_use_browser()` (an empty element
description is passed on as `None`); a completed DOM type optionally sends the
press-enter command; otherwise the parent visual `type` with the original
parameters. -/
def hybridType (rs : RoutingState) (text : String) (elemDesc : String)
    (overwrite : Bool) (enter : Bool) (findResp typeResp : JValue)
    (visual : String → String → Bool → Bool → String) :
    PyResult (String × List TraceEv) :=
  if shouldUseBrowser rs then
    match tryBrowserType rs text (if elemDesc == "" then none else some elemDesc)
            overwrite findResp typeResp with
    | .raise e => .raise e
    | .ok (some code, tr) =>
      if enter then
        .ok (code, tr ++ [.bridgeCmd "type" [("text", .str ""), ("pressEnter", .bool true)]])
      else .ok (code, tr)
    | .ok (none, tr) =>
      .ok (visual text elemDesc overwrite enter,
           tr ++ [.visualType text elemDesc overwrite enter])
  else
    .ok (visual text elemDesc overwrite enter, [.visualType text elemDesc overwrite enter])

/-- `HybridACI.scroll`: DOM first when `_should_use_browser()`, converting the
amount to pixels (`amount * 100`) and testing only `success` on the response;
otherwise the parent visual `scroll` with the original parameters. -/
def hybridScroll (rs : RoutingState) (desc : String) (direction : String)
    (amount : Int) (resp : JValue)
    (visual : String → String → Int → String) :
    PyResult (String × List TraceEv) :=
  if shouldUseBrowser rs then
    match successOnly resp with
    | .raise e => .raise e
    | .ok true =>
      .ok (scrollSettle,
           [.bridgeCmd "scroll" [("direction", .str direction), ("amount", .num (amount * 100))]])
    | .ok false =>
      .ok (visual desc direction amount,
           [.bridgeCmd "scroll" [("direction", .str direction), ("amount", .num (amount * 100))],
            .visualScroll desc direction amount])
  else .ok (visual desc direction amount, [.visualScroll desc direction amount])

/-- `HybridACI.goto`: when the bridge is available (regardless of the window
classification) issue `navigate` and, on a `success` response, return the
navigation settle instruction; in every other case return the OS-level
`webbrowser.open` instruction.  The visual executor is never involved. -/
def hybridGoto (rs : RoutingState) (url : String) (resp : JValue) :
    PyResult (String × List TraceEv) :=
  if browserAvailable rs then
    match successOnly resp with
    | .raise e => .raise e
    | .ok true => .ok (navSettle, [.bridgeCmd "navigate" [("url", .str url)]])
    | .ok false => .ok (webbrowserInstr url, [.bridgeCmd "navigate" [("url", .str url)]])
  else .ok (webbrowserInstr url, [])

/-- `HybridACI.get_page_content`: gated on `_should_use_browser()`; when
eligible issue `get_dom` and return the response's `result` value on success,
`None` otherwise. -/
def getPageContent (rs : RoutingState) (resp : JValue) :
    PyResult (Option JValue × List TraceEv) :=
  if !shouldUseBrowser rs then .ok (none, [])
  else
    match successOnly resp with
    | .raise e => .raise e
    | .ok true =>
      match pyGet resp "result" with
      | .raise e => .raise e
      | .ok r => .ok (r, [.bridgeCmd "get_dom" [("simplified", .bool true)]])
    | .ok false => .ok (none, [.bridgeCmd "get_dom" [("simplified", .bool true)]])

/-- `HybridACI.get_browser_screenshot`: gated only on `browser_available` (not
on the window classification); when eligible issue `screenshot` and return
the `screenshot` field of the response's `result` on success. -/
def getBrowserScreenshot (rs : RoutingState) (resp : JValue) :
    PyResult (Option JValue × List TraceEv) :=
  if !browserAvailable rs then .ok (none, [])
  else
    match successOnly resp with
    | .raise e => .raise e
    | .ok true =>
      match pyGetD resp "result" (.obj []) with
      | .raise e => .raise e
      | .ok r =>
        match pyGet r "screenshot" with
        | .raise e => .raise e
        | .ok s => .ok (s, [.bridgeCmd "screenshot" []])
    | .ok false => .ok (none, [.bridgeCmd "screenshot" []])

/-! ### The module-level bridge singleton (`get_browser_bridge`) -/

/-- A constructed `BrowserBridge` object: an identity (distinct per
construction) and whether `start()` was invoked on it. -/
structure BridgeObj : Type where
  objId : Nat
  started : Bool
  deriving Repr, DecidableEq

/-- The module-level state around `_bridge`: the global variable, a supply of
fresh object identities, and counters of constructions and `start()` calls. -/
structure ModuleState : Type where
  bridgeVar : Option BridgeObj
  nextObj : Nat
  constructed : Nat
  startCalls : Nat
  deriving Repr, DecidableEq

/-- `get_browser_bridge(auto_start)`: construct (and optionally start) the
bridge on first use, afterwards return the stored instance unchanged. -/
def getBrowserBridge (ms : ModuleState) (autoStart : Bool) :
    BridgeObj × ModuleState :=
  match ms.bridgeVar with
  | some b => (b, ms)
  | none =>
    let b : BridgeObj := ⟨ms.nextObj, autoStart⟩
    (b, { bridgeVar := some b, nextObj := ms.nextObj + 1,
          constructed := ms.constructed + 1,
          startCalls := ms.startCalls + (if autoStart then 1 else 0) })

/-- The module state before the first `get_browser_bridge` call. -/
def initialModuleState : ModuleState :=
  { bridgeVar := none, nextObj := 0, constructed := 0, startCalls := 0 }

/-- A sequence of `get_browser_bridge` calls (one `Bool` per call's
`auto_start` argument): the list of returned objects and the final module
state. -/
def runBridgeCalls (ms : ModuleState) : List Bool → List BridgeObj × ModuleState
  | [] => ([], ms)
  | a :: rest =>
    let (b, ms') := getBrowserBridge ms a
    let (bs, ms'') := runBridgeCalls ms' rest
    (b :: bs, ms'')

/-! ### Helper lemmas -/

lemma digitChar_injOn : ∀ a < 10, ∀ b < 10, Nat.digitChar a = Nat.digitChar b → a = b := by
  decide

lemma map_digitChar_inj :
    ∀ l₁ l₂ : List Nat, (∀ d ∈ l₁, d < 10) → (∀ d ∈ l₂, d < 10) →
      l₁.map Nat.digitChar = l₂.map Nat.digitChar → l₁ = l₂ := by
  intro l₁
  induction l₁ with
  | nil => intro l₂ _ _ h; cases l₂ <;> simp_all
  | cons a t ih =>
    intro l₂ h1 h2 h
    cases l₂ with
    | nil => simp at h
    | cons b u =>
      simp only [List.map_cons, List.cons.injEq] at h
      have hab : a = b :=
        digitChar_injOn a (h1 a (by simp)) b (h2 b (by simp)) h.1
      have ht : t = u :=
        ih u (fun d hd => h1 d (by simp [hd])) (fun d hd => h2 d (by simp [hd])) h.2
      simp [hab, ht]

lemma decStr_inj {m n : Nat} (hm : 0 < m) (hn : 0 < n) (h : decStr m = decStr n) :
    m = n := by
  unfold decStr at h
  rw [if_neg hm.ne', if_neg hn.ne'] at h
  have hdata : ((Nat.digits 10 m).map Nat.digitChar).reverse =
      ((Nat.digits 10 n).map Nat.digitChar).reverse := congrArg String.data h
  have hdig := map_digitChar_inj _ _
    (fun d hd => Nat.digits_lt_base (by norm_num) hd)
    (fun d hd => Nat.digits_lt_base (by norm_num) hd)
    (List.reverse_injective hdata)
  have := congrArg (Nat.ofDigits 10) hdig
  simpa [Nat.ofDigits_digits] using this

lemma string_append_cancel_left {a b c : String} (h : a ++ b = a ++ c) : b = c := by
  apply String.ext
  have h2 := congrArg String.data h
  simp only [String.data_append] at h2
  exact List.append_cancel_left h2

lemma mkId_inj {m n : Nat} (hm : 0 < m) (hn : 0 < n) (h : mkId m = mkId n) : m = n :=
  decStr_inj hm hn (string_append_cancel_left h)

lemma mkId_ne_empty (n : Nat) : mkId n ≠ "" := by
  intro h
  have hlen := congrArg String.length h
  simp [mkId, String.length_append] at hlen
  exact absurd hlen.1 (by decide)

lemma dictFind_filter_none {α : Type} {reg : List (String × α)} {k : String}
    (q : String × α → Bool) (h : dictFind reg k = none) :
    dictFind (reg.filter q) k = none := by
  unfold dictFind at *
  rw [Option.map_eq_none'] at *
  rw [List.find?_eq_none] at *
  intro x hx
  exact h x (List.mem_of_mem_filter hx)

lemma dictFind_pop_none {α : Type} {reg : List (String × α)} {k : String} (k' : String)
    (h : dictFind reg k = none) : dictFind (dictPop reg k') k = none :=
  dictFind_filter_none _ h

lemma dictFind_pop_self {α : Type} (reg : List (String × α)) (k : String) :
    dictFind (dictPop reg k) k = none := by
  unfold dictFind dictPop
  rw [Option.map_eq_none', List.find?_eq_none]
  intro x hx
  have := (List.mem_filter.mp hx).2
  simp at this
  simp [this]

lemma dictFind_set_ne {α : Type} {reg : List (String × α)} {k k' : String} (v : α)
    (hne : k ≠ k') (h : dictFind reg k = none) :
    dictFind (dictSet reg k' v) k = none := by
  unfold dictSet
  unfold dictFind at h ⊢
  rw [List.find?_append]
  have h1 : List.find? (fun p => p.1 == k) (dictPop reg k') = none := by
    have := @dictFind_pop_none _ reg k k' h
    unfold dictFind at this
    rwa [Option.map_eq_none'] at this
  have h2 : List.find? (fun p => (p.1 == k)) [(k', v)] = none := by
    have hbeq : (k' == k) = false := by
      simp [Ne.symm hne]
    simp [List.find?, hbeq]
  rw [h1, h2]
  rfl

lemma sendCommandStart_some {st : BridgeState} {cmdId : String} {st1 : BridgeState}
    (h : sendCommandStart st = some (cmdId, st1)) :
    (st.connected && st.hasLoop) = true ∧
    cmdId = mkId (st.commandId + 1) ∧
    st1.connected = st.connected ∧ st1.hasLoop = st.hasLoop ∧
    st1.commandId = st.commandId + 1 ∧
    st1.pending = dictSet st.pending (mkId (st.commandId + 1)) FutureState.waiting := by
  unfold sendCommandStart allocSeq at h
  split at h
  · simp only [Option.some.injEq, Prod.mk.injEq] at h
    obtain ⟨hid, hst⟩ := h
    subst hid
    subst hst
    simp_all
  · cases h

lemma handleMessage_reg_sub {pending : Reg} {msg : Option JValue} {p' : Reg}
    {r : Option Resolution} (h : handleMessage pending msg = .ok (p', r)) :
    p' = pending ∨ ∃ s, p' = dictPop pending s := by
  unfold handleMessage at h
  cases msg with
  | none =>
    simp only [PyResult.ok.injEq, Prod.mk.injEq] at h
    exact Or.inl h.1.symm
  | some data =>
    cases data <;> simp only [pyGet] at h <;>
      try exact PyResult.noConfusion h
    case obj fs =>
      repeat' split at h
      all_goals
        first
        | exact PyResult.noConfusion h
        | (simp only [PyResult.ok.injEq, Prod.mk.injEq] at h;
           first
           | exact Or.inl h.1.symm
           | exact Or.inr ⟨_, h.1.symm⟩)

lemma handleMessage_stale {pending : Reg} {data : JValue} {s : String}
    (hid : pyGet data "id" = .ok (some (.str s)))
    (habs : dictFind pending s = none) :
    handleMessage pending (some data) = .ok (pending, none) := by
  cases data <;> simp only [pyGet, PyResult.ok.injEq] at hid <;>
    try exact PyResult.noConfusion hid
  case obj fs =>
    unfold handleMessage
    simp only [pyGet, hid]
    split
    · rfl
    · cases hstr : truthy (JValue.str s) <;> simp [hstr, habs]

lemma bridgeStep_commandId_mono {st st' : BridgeState} (h : BridgeStep st st') :
    st.commandId ≤ st'.commandId := by
  cases h with
  | register cmdId st1 hr =>
    have := (sendCommandStart_some hr).2.2.2.2.1
    omega
  | abandon cmdId => exact le_refl _
  | handleMsg msg p' r hm => exact le_refl _
  | disconnect => exact le_refl _
  | connect => exact le_refl _
  | loopUp => exact le_refl _

/-- Invariant carried along steps: the numeric tag `k` of an abandoned
correlation id is positive, at most the counter, and its id is absent from
the registry. -/
def staleIdFree (k : Nat) (st : BridgeState) : Prop :=
  0 < k ∧ k ≤ st.commandId ∧ dictFind st.pending (mkId k) = none

lemma staleIdFree_step {k : Nat} {st st' : BridgeState} (h : BridgeStep st st')
    (hinv : staleIdFree k st) : staleIdFree k st' := by
  obtain ⟨hk, hle, habs⟩ := hinv
  cases h with
  | register cmdId st1 hr =>
    obtain ⟨-, -, -, -, hcid, hpend⟩ := sendCommandStart_some hr
    refine ⟨hk, by omega, ?_⟩
    rw [hpend]
    refine dictFind_set_ne _ ?_ habs
    intro heq
    have := mkId_inj hk (by omega) heq
    omega
  | abandon cmdId => exact ⟨hk, hle, dictFind_pop_none _ habs⟩
  | handleMsg msg p' r hm =>
    rcases handleMessage_reg_sub hm with h' | ⟨s, h'⟩
    · subst h'; exact ⟨hk, hle, habs⟩
    · subst h'; exact ⟨hk, hle, dictFind_pop_none _ habs⟩
  | disconnect =>
    refine ⟨hk, hle, ?_⟩
    simp [handleClientCleanup, dictFind]
  | connect => exact ⟨hk, hle, habs⟩
  | loopUp => exact ⟨hk, hle, habs⟩

lemma staleIdFree_reach {k : Nat} {st st' : BridgeState} (h : BridgeReach st st')
    (hinv : staleIdFree k st) : staleIdFree k st' := by
  induction h with
  | refl => exact hinv
  | tail _ hstep ih => exact staleIdFree_step hstep ih

lemma bridgeReach_commandId_mono {st st' : BridgeState} (h : BridgeReach st st') :
    st.commandId ≤ st'.commandId := by
  induction h with
  | refl => exact le_refl _
  | tail _ hstep ih => exact le_trans ih (bridgeStep_commandId_mono hstep)

lemma receiveLoop_none_frames (st : BridgeState) :
    ∀ frames : List (Option JValue), (∀ f ∈ frames, f = none) →
      receiveLoop st frames = (st, [], []) := by
  intro frames
  induction frames with
  | nil => intro _; rfl
  | cons f rest ih =>
    intro hall
    have hf := hall f (by simp)
    subst hf
    have hstep : receiveLoop st (none :: rest) = receiveLoop st rest := rfl
    rw [hstep]
    exact ih (fun g hg => hall g (by simp [hg]))

/-! ### Claim theorems -/

/-- C1: when the receive-loop handler exits (the peer connection is lost),
the `finally` cleanup leaves the pending-call registry empty, and every
future that was still pending is completed with the disconnected error, so
its blocked `send_command` caller is unblocked and returns the Disconnected
failure dictionary. -/
theorem disconnect_cancels_all_pending (st : BridgeState) :
    (handleClientCleanup st).1.pending = [] ∧
    ∀ id f, (id, f) ∈ st.pending → f = FutureState.waiting →
      (id, FutureState.doneError "Extension disconnected") ∈ (handleClientCleanup st).2 ∧
      callerReturn (FutureState.doneError "Extension disconnected") =
        some (errOutcome "Extension disconnected") := by
  refine ⟨rfl, ?_⟩
  intro id f hmem hw
  subst hw
  refine ⟨?_, rfl⟩
  simpa [handleClientCleanup, cancelPendingFutures] using
    List.mem_map_of_mem
      (fun p : String × FutureState =>
        (p.1, match p.2 with
              | .waiting => FutureState.doneError "Extension disconnected"
              | f => f))
      hmem

theorem disconnect_cancels_all_pending_witness :
    (handleClientCleanup ⟨true, true, 3, [(mkId 3, FutureState.waiting)]⟩).1.pending = [] ∧
    (mkId 3, FutureState.doneError "Extension disconnected") ∈
      (handleClientCleanup ⟨true, true, 3, [(mkId 3, FutureState.waiting)]⟩).2 ∧
    callerReturn (FutureState.doneError "Extension disconnected") =
      some (errOutcome "Extension disconnected") := by
  have h := disconnect_cancels_all_pending ⟨true, true, 3, [(mkId 3, FutureState.waiting)]⟩
  have h2 := h.2 (mkId 3) FutureState.waiting (by simp) rfl
  exact ⟨h.1, h2.1, h2.2⟩

/-- C2 amended: in executions whose id allocations are serialized (no two
callers interleaved inside the unsynchronized counter increment — the
premise under which ids are unique and never reused), a `send_command` call
that times out returns the Timeout outcome and pops its own correlation id
from the registry, and from then on, at every state the system can reach, a
response frame carrying that id resolves no pending call.  Under a raced
duplicate allocation the original claim fails: see the accompanying
counterexample. -/
theorem timeout_deregisters_and_late_response_resolves_nothing
    (st0 : BridgeState) (cmdId : String) (st1 : BridgeState)
    (action : String) (params : List (String × JValue))
    (hreg : sendCommandStart st0 = some (cmdId, st1))
    (stW : BridgeState) (hW : BridgeReach st1 stW) :
    (sendCommand st0 action params .timedOut).1 = timeoutOutcome ∧
    dictFind (sendCommandAbandon stW cmdId).pending cmdId = none ∧
    ∀ st2, BridgeReach (sendCommandAbandon stW cmdId) st2 →
      ∀ data, pyGet data "id" = .ok (some (.str cmdId)) →
        handleMessage st2.pending (some data) = .ok (st2.pending, none) := by
  obtain ⟨hguard, hid, -, -, hcid, -⟩ := sendCommandStart_some hreg
  have hmonoW := bridgeReach_commandId_mono hW
  refine ⟨?_, ?_, ?_⟩
  · simp [sendCommand, hguard]
  · exact dictFind_pop_self _ _
  · intro st2 h2 data hdata
    subst hid
    have hfree : staleIdFree (st0.commandId + 1)
        (sendCommandAbandon stW (mkId (st0.commandId + 1))) :=
      ⟨by omega,
       by show st0.commandId + 1 ≤ stW.commandId; omega,
       dictFind_pop_self _ _⟩
    have hfree2 := staleIdFree_reach h2 hfree
    exact handleMessage_stale hdata hfree2.2.2

theorem timeout_deregisters_witness :
    sendCommandStart ⟨true, true, 0, []⟩ =
      some (mkId 1, ⟨true, true, 1, [(mkId 1, FutureState.waiting)]⟩) ∧
    (sendCommand ⟨true, true, 0, []⟩ "click" [] .timedOut).1 = timeoutOutcome ∧
    handleMessage
        (sendCommandAbandon ⟨true, true, 1, [(mkId 1, FutureState.waiting)]⟩ (mkId 1)).pending
        (some (.obj [("id", .str (mkId 1))])) =
      .ok ((sendCommandAbandon ⟨true, true, 1, [(mkId 1, FutureState.waiting)]⟩ (mkId 1)).pending,
           none) := by
  have h := timeout_deregisters_and_late_response_resolves_nothing
    ⟨true, true, 0, []⟩ (mkId 1) ⟨true, true, 1, [(mkId 1, FutureState.waiting)]⟩
    "click" [] rfl
    ⟨true, true, 1, [(mkId 1, FutureState.waiting)]⟩ Relation.ReflTransGen.refl
  exact ⟨rfl, h.1, h.2.2 _ Relation.ReflTransGen.refl _ rfl⟩

/-- C2 counterexample: with the unsynchronized allocation the original claim
fails.  Under the interleaving `raceSchedule` two concurrent callers both
allocate the correlation id `cmd-1` (first two conjuncts).  Caller B
registers its future under `cmd-1` and, on timeout, its pop leaves the
registry empty again (third conjunct); caller A then registers its own
future under the duplicated id (fourth conjunct).  When B's response frame
arrives late, `_handle_message` finds A's entry under the reused id and
resolves it with B's response (final conjunct): the late response resolves a
PendingCall belonging to a different call. -/
theorem raced_duplicate_id_lets_late_response_resolve_other_call :
    (raceRun ⟨0, 0, 0, none, none⟩ raceSchedule).id1 = some (mkId 1) ∧
    (raceRun ⟨0, 0, 0, none, none⟩ raceSchedule).id2 = some (mkId 1) ∧
    dictPop (dictSet ([] : Reg) (mkId 1) FutureState.waiting) (mkId 1) = ([] : Reg) ∧
    dictSet ([] : Reg) (mkId 1) FutureState.waiting = [(mkId 1, FutureState.waiting)] ∧
    handleMessage [(mkId 1, FutureState.waiting)]
        (some (.obj [("id", .str (mkId 1)), ("success", .bool true)])) =
      .ok ([], some ⟨mkId 1, .obj [("id", .str (mkId 1)), ("success", .bool true)]⟩) := by
  refine ⟨rfl, rfl, ?_, rfl, ?_⟩
  · simp [dictPop, dictSet]
  · have hne : (mkId 1 == "") = false := by
      simp [mkId_ne_empty 1]
    unfold handleMessage
    simp [pyGet, isHandshakeTag, truthy, dictFind, dictPop, List.find?, hne]

/-- C3: `send_command` always returns a single outcome dictionary: with no
live connection it returns the Disconnected outcome immediately, sending
nothing and independently of anything that could happen during a wait; with
a connection, a resolved response is returned as-is, a timeout is returned
as the Timeout dictionary and an exception raised from the wait (e.g. the
disconnect cancellation) is caught and returned as a failure dictionary —
never re-raised. -/
theorem send_command_returns_outcomes_never_raises (st : BridgeState)
    (action : String) (params : List (String × JValue)) :
    ((st.connected && st.hasLoop) = false →
      ∀ w, sendCommand st action params w = (notConnectedOutcome, none)) ∧
    ((st.connected && st.hasLoop) = true →
      (∀ v, (sendCommand st action params (.resolved v)).1 = v) ∧
      ((sendCommand st action params .timedOut).1 = timeoutOutcome) ∧
      (∀ e, (sendCommand st action params (.excRaised e)).1 =
        errOutcome (excMessage e))) := by
  unfold sendCommand
  constructor
  · intro hg w
    rw [hg]
    cases w <;> rfl
  · intro hg
    rw [hg]
    exact ⟨fun v => rfl, rfl, fun e => rfl⟩

theorem send_command_returns_outcomes_witness :
    (sendCommand ⟨false, false, 0, []⟩ "click" [] .timedOut =
      (notConnectedOutcome, none)) ∧
    (sendCommand ⟨true, true, 0, []⟩ "click" [] .timedOut).1 = timeoutOutcome := by
  have h1 := send_command_returns_outcomes_never_raises ⟨false, false, 0, []⟩ "click" []
  have h2 := send_command_returns_outcomes_never_raises ⟨true, true, 0, []⟩ "click" []
  exact ⟨h1.1 rfl .timedOut, (h2.2 rfl).2.1⟩

/-- C4 counterexample: the frame `42` is valid JSON but decodes to neither a
handshake nor a response object; `_handle_message` raises `AttributeError`
on it (only `json.JSONDecodeError` is caught), the receive loop stops — the
following frame is never processed — and the connection is torn down
(`connected` becomes false and the pending registry is cancelled). -/
theorem malformed_nonobject_frame_raises_and_kills_connection :
    handleMessage [] (some (JValue.num 42)) = .raise "AttributeError" ∧
    (receiveLoop ⟨true, true, 0, []⟩ [some (JValue.num 42), none]).2.2 = [none] ∧
    (receiveLoop ⟨true, true, 0, []⟩ [some (JValue.num 42), none]).1.connected = false :=
  ⟨rfl, rfl, rfl⟩

/-- C4 amended: only frames that fail JSON decoding are guaranteed to be
logged and dropped without raising: on such frames the handler returns with
the registry untouched, and the receive loop survives any number of them
with the connection state unchanged. -/
theorem nonjson_frames_logged_and_dropped (pending : Reg) (st : BridgeState)
    (frames : List (Option JValue)) (hall : ∀ f ∈ frames, f = none) :
    handleMessage pending none = .ok (pending, none) ∧
    receiveLoop st frames = (st, [], []) :=
  ⟨rfl, receiveLoop_none_frames st frames hall⟩

theorem nonjson_frames_logged_and_dropped_witness :
    handleMessage [] none = .ok ([], none) ∧
    receiveLoop ⟨true, true, 0, []⟩ [none, none] = (⟨true, true, 0, []⟩, [], []) :=
  nonjson_frames_logged_and_dropped [] ⟨true, true, 0, []⟩ [none, none]
    (by intro f hf; simp at hf; tauto)

/-- Is a trace event an invocation of the visual executor? -/
def TraceEv.isVisual : TraceEv → Bool
  | .bridgeCmd _ _ => false
  | _ => true

lemma successIndicator_success_some (key : String) (p : List (String × JValue)) :
    successIndicator key (outcomeDict (.success (some p))) =
      .ok (truthyOpt (dictFind p key)) := by
  simp [successIndicator, outcomeDict, pyGet, pyGetD, truthyOpt, truthy, dictFind,
        List.find?]

lemma successIndicator_success_none (key : String) :
    successIndicator key (outcomeDict (.success none)) = .ok false := by
  simp [successIndicator, outcomeDict, pyGet, pyGetD, truthyOpt, truthy, List.find?]

lemma successIndicator_no_success (key : String) (o : Outcome)
    (h : ∀ p, o ≠ .success p) : successIndicator key (outcomeDict o) = .ok false := by
  cases o with
  | success p => exact absurd rfl (h p)
  | failure r =>
    simp [successIndicator, outcomeDict, pyGet, truthyOpt, truthy, List.find?]
  | timedOut =>
    simp [successIndicator, outcomeDict, timeoutOutcome, errOutcome, pyGet,
          truthyOpt, truthy, List.find?]
  | disconnected =>
    simp [successIndicator, outcomeDict, errOutcome, pyGet, truthyOpt, truthy,
          List.find?]

lemma successOnly_outcome (o : Outcome) :
    successOnly (outcomeDict o) =
      .ok (match o with | .success _ => true | _ => false) := by
  cases o with
  | success p =>
    cases p <;>
      simp [successOnly, outcomeDict, pyGet, truthyOpt, truthy, List.find?]
  | failure r =>
    simp [successOnly, outcomeDict, errOutcome, pyGet, truthyOpt, truthy, List.find?]
  | timedOut =>
    simp [successOnly, outcomeDict, timeoutOutcome, errOutcome, pyGet, truthyOpt,
          truthy, List.find?]
  | disconnected =>
    simp [successOnly, outcomeDict, errOutcome, pyGet, truthyOpt, truthy, List.find?]

/-- C5: for click, type and scroll, if the peer is not connected or the
foreground application is not classified as a browser, no bridge command is
issued at all: the call is exactly one visual-executor invocation with the
original parameters, whose result is returned. -/
theorem ineligible_actions_go_straight_to_visual (rs : RoutingState)
    (hcond : rs.connected = false ∨ rs.foregroundBrowser = false) :
    (∀ desc nclicks btype hold resp visual,
      hybridClick rs desc nclicks btype hold resp visual =
        .ok (visual desc nclicks btype hold, [.visualClick desc nclicks btype hold])) ∧
    (∀ text elemDesc overwrite enter findResp typeResp visual,
      hybridType rs text elemDesc overwrite enter findResp typeResp visual =
        .ok (visual text elemDesc overwrite enter,
             [.visualType text elemDesc overwrite enter])) ∧
    (∀ desc direction amount resp visual,
      hybridScroll rs desc direction amount resp visual =
        .ok (visual desc direction amount, [.visualScroll desc direction amount])) := by
  have hsub : shouldUseBrowser rs = false := by
    unfold shouldUseBrowser browserAvailable
    rcases hcond with h | h <;> simp [h]
  refine ⟨?_, ?_, ?_⟩ <;> intros <;>
    simp [hybridClick, hybridType, hybridScroll, hsub]

theorem ineligible_actions_witness :
    hybridClick ⟨true, true, true, false⟩ "OK button" 1 "left" [] JValue.null
        (fun _ _ _ _ => "VISUAL") =
      .ok ("VISUAL", [.visualClick "OK button" 1 "left" []]) :=
  (ineligible_actions_go_straight_to_visual ⟨true, true, true, false⟩
    (Or.inr rfl)).1 "OK button" 1 "left" [] JValue.null (fun _ _ _ _ => "VISUAL")

/-- The positive click indicator: a success outcome whose result object maps
"clicked" to `true`. -/
def clickedTrue : Outcome → Prop
  | .success (some p) => dictFind p "clicked" = some (.bool true)
  | _ => False

/-- Protocol conformance of a click response: the "clicked" field of the
result object, when present, is a boolean. -/
def clickedWellTyped : Outcome → Prop
  | .success (some p) =>
      dictFind p "clicked" = none ∨ ∃ b, dictFind p "clicked" = some (.bool b)
  | _ => True

/-- C6: a click routed through the bridge completes — returning the fixed
settle-delay instruction, with no visual invocation — exactly when the
outcome is a success carrying `clicked = true`; for every other outcome
(success without the indicator, failure, timeout, disconnected) the visual
executor is invoked exactly once with the original parameters and its result
is returned. -/
theorem click_settles_on_indicator_else_one_visual_fallback
    (rs : RoutingState) (h : shouldUseBrowser rs = true)
    (desc : String) (nclicks : Nat) (btype : String) (hold : List String)
    (visual : String → Nat → String → List String → String) (o : Outcome)
    (hwt : clickedWellTyped o) :
    (clickedTrue o →
      hybridClick rs desc nclicks btype hold (outcomeDict o) visual =
        .ok (clickSettle, [.bridgeCmd "click" [("text", .str desc)]])) ∧
    (¬ clickedTrue o →
      hybridClick rs desc nclicks btype hold (outcomeDict o) visual =
        .ok (visual desc nclicks btype hold,
             [.bridgeCmd "click" [("text", .str desc)],
              .visualClick desc nclicks btype hold])) := by
  have havail : browserAvailable rs = true := by
    unfold shouldUseBrowser at h
    exact (Bool.and_eq_true_iff.mp h).1
  have hind : ∀ b : Bool,
      successIndicator "clicked" (outcomeDict o) = .ok b →
      hybridClick rs desc nclicks btype hold (outcomeDict o) visual =
        (if b then .ok (clickSettle, [.bridgeCmd "click" [("text", .str desc)]])
         else .ok (visual desc nclicks btype hold,
                   [.bridgeCmd "click" [("text", .str desc)],
                    .visualClick desc nclicks btype hold])) := by
    intro b hb
    cases b <;> simp [hybridClick, tryBrowserClick, h, havail, hb]
  constructor
  · intro hpos
    cases o with
    | success p =>
      cases p with
      | none => exact absurd hpos (by simp [clickedTrue])
      | some fields =>
        have hb : successIndicator "clicked" (outcomeDict (.success (some fields))) = .ok true := by
          rw [successIndicator_success_some]
          have : dictFind fields "clicked" = some (.bool true) := hpos
          simp [this, truthyOpt, truthy]
        simpa using hind true hb
    | failure r => exact absurd hpos (by simp [clickedTrue])
    | timedOut => exact absurd hpos (by simp [clickedTrue])
    | disconnected => exact absurd hpos (by simp [clickedTrue])
  · intro hneg
    have hb : successIndicator "clicked" (outcomeDict o) = .ok false := by
      cases o with
      | success p =>
        cases p with
        | none => exact successIndicator_success_none _
        | some fields =>
          rw [successIndicator_success_some]
          rcases hwt with hnone | ⟨b, hb'⟩
          · simp [hnone, truthyOpt]
          · cases b with
            | true => exact absurd hb' hneg
            | false => simp [hb', truthyOpt, truthy]
      | failure r => exact successIndicator_no_success _ _ (by intro p hp; cases hp)
      | timedOut => exact successIndicator_no_success _ _ (by intro p hp; cases hp)
      | disconnected => exact successIndicator_no_success _ _ (by intro p hp; cases hp)
    simpa using hind false hb

theorem click_settles_on_indicator_witness :
    hybridClick ⟨true, true, true, true⟩ "OK button" 1 "left" []
        (outcomeDict (.success (some [("clicked", .bool true)])))
        (fun _ _ _ _ => "VISUAL") =
      .ok (clickSettle, [.bridgeCmd "click" [("text", .str "OK button")]]) :=
  (click_settles_on_indicator_else_one_visual_fallback
    ⟨true, true, true, true⟩ rfl "OK button" 1 "left" [] (fun _ _ _ _ => "VISUAL")
    (.success (some [("clicked", .bool true)])) (Or.inr ⟨true, rfl⟩)).1 rfl

/-- C7 counterexample: with the peer connected but the foreground window not
classified as a browser, the screenshot query still issues the `screenshot`
bridge command and returns the (possibly stale) image instead of `None` —
the claimed strict gate holds only for the page-content query. -/
theorem screenshot_not_gated_on_foreground_counterexample :
    getBrowserScreenshot ⟨true, true, true, false⟩
        (outcomeDict (.success (some [("screenshot", .str "IMG")]))) =
      .ok (some (.str "IMG"), [.bridgeCmd "screenshot" []]) ∧
    [TraceEv.bridgeCmd "screenshot" []] ≠ ([] : List TraceEv) :=
  ⟨rfl, by simp⟩

/-- C7 amended: the page-content query returns `None` without issuing any
bridge command whenever the foreground application is not classified as a
browser; the screenshot query is gated only on bridge availability — it
returns `None` without issuing a command exactly when the bridge is
unavailable, regardless of the foreground classification. -/
theorem content_gated_on_foreground_screenshot_on_availability
    (rs : RoutingState) (resp : JValue) :
    (rs.foregroundBrowser = false → getPageContent rs resp = .ok (none, [])) ∧
    (browserAvailable rs = false → getBrowserScreenshot rs resp = .ok (none, [])) := by
  constructor
  · intro h
    simp [getPageContent, shouldUseBrowser, h]
  · intro h
    simp [getBrowserScreenshot, h]

theorem content_gated_witness :
    getPageContent ⟨true, true, true, false⟩ JValue.null = .ok (none, []) ∧
    getBrowserScreenshot ⟨false, true, true, true⟩ JValue.null = .ok (none, []) :=
  ⟨(content_gated_on_foreground_screenshot_on_availability
      ⟨true, true, true, false⟩ JValue.null).1 rfl,
   (content_gated_on_foreground_screenshot_on_availability
      ⟨false, true, true, true⟩ JValue.null).2 rfl⟩

/-- C8: when the bridge is unavailable, `goto` returns the OS-level
`webbrowser.open` instruction (open the address in a new browser window)
without issuing any command; and for every bridge outcome, `goto` never
invokes the visual executor — its trace contains bridge commands only. -/
theorem goto_opens_new_window_never_visual (rs : RoutingState) (url : String) :
    (browserAvailable rs = false →
      ∀ resp, hybridGoto rs url resp = .ok (webbrowserInstr url, [])) ∧
    (∀ o : Outcome, ∃ out tr,
      hybridGoto rs url (outcomeDict o) = .ok (out, tr) ∧
      tr.all (fun ev => !ev.isVisual) = true) := by
  constructor
  · intro hav resp
    simp [hybridGoto, hav]
  · intro o
    by_cases hav : browserAvailable rs = true
    · cases o with
      | success p =>
        refine ⟨navSettle, [.bridgeCmd "navigate" [("url", .str url)]], ?_, by simp [TraceEv.isVisual]⟩
        simp [hybridGoto, hav, successOnly_outcome]
      | failure r =>
        refine ⟨webbrowserInstr url, [.bridgeCmd "navigate" [("url", .str url)]], ?_,
                by simp [TraceEv.isVisual]⟩
        simp [hybridGoto, hav, successOnly_outcome]
      | timedOut =>
        refine ⟨webbrowserInstr url, [.bridgeCmd "navigate" [("url", .str url)]], ?_,
                by simp [TraceEv.isVisual]⟩
        simp [hybridGoto, hav, successOnly_outcome]
      | disconnected =>
        refine ⟨webbrowserInstr url, [.bridgeCmd "navigate" [("url", .str url)]], ?_,
                by simp [TraceEv.isVisual]⟩
        simp [hybridGoto, hav, successOnly_outcome]
    · refine ⟨webbrowserInstr url, [], ?_, by simp⟩
      have hav' : browserAvailable rs = false := by
        cases hb : browserAvailable rs
        · rfl
        · exact absurd hb hav
      simp [hybridGoto, hav']

theorem goto_opens_new_window_witness :
    hybridGoto ⟨false, false, false, false⟩ "https://x" JValue.null =
      .ok (webbrowserInstr "https://x", []) :=
  (goto_opens_new_window_never_visual ⟨false, false, false, false⟩ "https://x").1
    rfl JValue.null

/-- Sequential iteration of the allocation fragment: the ids handed out by
`n` successive, non-overlapping `send_command` calls starting from counter
`c`. -/
def allocRun (c : Nat) : Nat → List String
  | 0 => []
  | n + 1 => (allocSeq c).1 :: allocRun (allocSeq c).2 n

lemma allocRun_eq (n : Nat) :
    ∀ c, allocRun c n = (List.range n).map (fun i => mkId (c + 1 + i)) := by
  induction n with
  | zero => intro c; rfl
  | succ n ih =>
    intro c
    have h1 : allocRun c (n + 1) = mkId (c + 1) :: allocRun (c + 1) n := rfl
    rw [h1, ih (c + 1), List.range_succ_eq_map, List.map_cons, List.map_map]
    have h2 : ((fun i => mkId (c + 1 + i)) ∘ Nat.succ) = (fun i => mkId (c + 1 + 1 + i)) := by
      funext i
      simp only [Function.comp]
      congr 1
      omega
    rw [h2]

lemma allocRun_nodup (c n : Nat) : (allocRun c n).Nodup := by
  rw [allocRun_eq]
  refine List.Nodup.map_on ?_ (List.nodup_range n)
  intro x hx y hy hxy
  have := @mkId_inj (c + 1 + x) (c + 1 + y) (by omega) (by omega) hxy
  omega

/-- C9 counterexample: the counter increment in `send_command` is an
unsynchronized read-modify-write, so two concurrent callers may interleave
it.  `raceSchedule` is a legal interleaving of the two threads' program
orders under which both invocations allocate the same correlation id
`cmd-1`, contradicting process-lifetime uniqueness under concurrency. -/
theorem concurrent_allocation_can_duplicate_id :
    thread1Prog.Sublist raceSchedule ∧ thread2Prog.Sublist raceSchedule ∧
    raceSchedule.length = thread1Prog.length + thread2Prog.length ∧
    (raceRun ⟨0, 0, 0, none, none⟩ raceSchedule).id1 = some (mkId 1) ∧
    (raceRun ⟨0, 0, 0, none, none⟩ raceSchedule).id2 = some (mkId 1) :=
  ⟨by decide, by decide, rfl, rfl, rfl⟩

/-- C9 amended: sequential (non-overlapping) invocations allocate strictly
increasing, pairwise-distinct correlation ids — the `i`-th call from counter
`c` gets `cmd-(c+1+i)` — and each registration uses exactly the id
`cmd-(counter+1)` while bumping the counter; only concurrent, interleaved
invocations can duplicate an id. -/
theorem sequential_ids_monotone_and_unique (st : BridgeState) (c n : Nat) :
    allocRun c n = (List.range n).map (fun i => mkId (c + 1 + i)) ∧
    (allocRun c n).Nodup ∧
    (∀ cmdId st1, sendCommandStart st = some (cmdId, st1) →
      cmdId = mkId (st.commandId + 1) ∧ st1.commandId = st.commandId + 1) := by
  refine ⟨allocRun_eq n c, allocRun_nodup c n, ?_⟩
  intro cmdId st1 h
  obtain ⟨-, hid, -, -, hcid, -⟩ := sendCommandStart_some h
  exact ⟨hid, hcid⟩

theorem sequential_ids_witness :
    allocRun 0 2 = (List.range 2).map (fun i => mkId (0 + 1 + i)) ∧
    (allocRun 0 2).Nodup ∧
    mkId 1 = mkId (0 + 1) := by
  have h := sequential_ids_monotone_and_unique ⟨true, true, 0, []⟩ 0 2
  exact ⟨h.1, h.2.1,
    (h.2.2 (mkId 1) ⟨true, true, 1, [(mkId 1, FutureState.waiting)]⟩ rfl).1⟩

lemma runBridgeCalls_saturated (b : BridgeObj) :
    ∀ (autos : List Bool) (ms : ModuleState), ms.bridgeVar = some b →
      runBridgeCalls ms autos = (List.replicate autos.length b, ms) := by
  intro autos
  induction autos with
  | nil => intro ms h; rfl
  | cons a rest ih =>
    intro ms h
    have hget : getBrowserBridge ms a = (b, ms) := by
      unfold getBrowserBridge
      rw [h]
    have hstep : runBridgeCalls ms (a :: rest) =
        (b :: (runBridgeCalls ms rest).1, (runBridgeCalls ms rest).2) := by
      conv_lhs => rw [runBridgeCalls]
      rw [hget]
    rw [hstep, ih ms h]
    rfl

/-- C10: `get_browser_bridge` is a process-wide singleton: the first call
constructs exactly one bridge (calling `start()` on it iff `auto_start` is
set) and stores it in the module global; every subsequent call — whatever
its argument and whichever `HybridACI` instance makes it — returns that
identical object and leaves the module state unchanged, constructing and
starting nothing further. -/
theorem browser_bridge_is_singleton (a0 : Bool) (autos : List Bool) :
    ((getBrowserBridge initialModuleState a0).2.constructed = 1) ∧
    ((getBrowserBridge initialModuleState a0).2.startCalls = if a0 then 1 else 0) ∧
    ((getBrowserBridge initialModuleState a0).1.started = a0) ∧
    ((getBrowserBridge initialModuleState a0).2.bridgeVar =
      some (getBrowserBridge initialModuleState a0).1) ∧
    (runBridgeCalls (getBrowserBridge initialModuleState a0).2 autos =
      (List.replicate autos.length (getBrowserBridge initialModuleState a0).1,
       (getBrowserBridge initialModuleState a0).2)) := by
  have h1 : getBrowserBridge initialModuleState a0 =
      (⟨0, a0⟩, ⟨some ⟨0, a0⟩, 1, 1, if a0 then 1 else 0⟩) := by
    cases a0 <;> rfl
  rw [h1]
  exact ⟨rfl, rfl, rfl, rfl, runBridgeCalls_saturated _ autos _ rfl⟩

end AgentS3
